import Mathlib

/-!
Verification of the `uuid` crate core (src/lib.rs and src/v1.rs): the
16-byte value model with variant/version classification, the field and
u128 accessors, the Version-1 time-based generator with its timestamp
extraction, and the clock-sequence `Context`.

Machine integers are embedded as `Nat` with explicit `% 2 ^ w` where
wrap-around matters.  Rust `x >> k` becomes `x / 2 ^ k`, `x & m` for a
contiguous low mask `m = 2 ^ k - 1` becomes `x % 2 ^ k`, and `x | y` on
provably disjoint bit ranges becomes `x + y`.  `u8` bytes are `Nat`s
that every source-built value keeps below 256; claims about arbitrary
UUIDs carry the byte bounds as explicit hypotheses where they matter.
-/

namespace UuidCrate

/-- The reserved variants of UUIDs (src/lib.rs `enum Variant`). -/
inductive Variant where
  | NCS
  | RFC4122
  | Microsoft
  | Future
  deriving DecidableEq

/-- The version of the UUID, denoting the generating algorithm
(src/lib.rs `enum Version`). -/
inductive Version where
  | Nil
  | Mac
  | Dce
  | Md5
  | Random
  | Sha1
  deriving DecidableEq

/-- A UUID: exactly 16 octets (src/lib.rs `struct Uuid(Bytes)` with
`Bytes = [u8; 16]`).  Field `bi` is `self.as_bytes()[i]`. -/
structure Uuid where
  (b0 b1 b2 b3 b4 b5 b6 b7 b8 b9 b10 b11 b12 b13 b14 b15 : Nat)
  deriving DecidableEq

/-- `Uuid::as_u128` (src/lib.rs): packs the 16 bytes big-endian into a
single 128-bit integer.  Each `(byte as u128) << k` is `byte * 2 ^ k`,
and `|` of the disjoint lanes is `+`. -/
def Uuid.as_u128 (u : Uuid) : Nat :=
  u.b0 * 2 ^ 120 + u.b1 * 2 ^ 112 + u.b2 * 2 ^ 104 + u.b3 * 2 ^ 96 +
  u.b4 * 2 ^ 88 + u.b5 * 2 ^ 80 + u.b6 * 2 ^ 72 + u.b7 * 2 ^ 64 +
  u.b8 * 2 ^ 56 + u.b9 * 2 ^ 48 + u.b10 * 2 ^ 40 + u.b11 * 2 ^ 32 +
  u.b12 * 2 ^ 24 + u.b13 * 2 ^ 16 + u.b14 * 2 ^ 8 + u.b15

/-- `Uuid::to_u128_le` (src/lib.rs): packs the 16 bytes little-endian,
byte 0 in the low lane and byte 15 in the high lane. -/
def Uuid.to_u128_le (u : Uuid) : Nat :=
  u.b0 + u.b1 * 2 ^ 8 + u.b2 * 2 ^ 16 + u.b3 * 2 ^ 24 +
  u.b4 * 2 ^ 32 + u.b5 * 2 ^ 40 + u.b6 * 2 ^ 48 + u.b7 * 2 ^ 56 +
  u.b8 * 2 ^ 64 + u.b9 * 2 ^ 72 + u.b10 * 2 ^ 80 + u.b11 * 2 ^ 88 +
  u.b12 * 2 ^ 96 + u.b13 * 2 ^ 104 + u.b14 * 2 ^ 112 + u.b15 * 2 ^ 120

/-- `Uuid::is_nil` (src/lib.rs): `self.as_u128() == 0`. -/
def Uuid.is_nil (u : Uuid) : Bool :=
  u.as_u128 == 0

/-- `Uuid::get_variant` (src/lib.rs): classifies byte 8.  The Rust match
guards `x & 0x80 == 0x00`, `x & 0xc0 == 0x80`, `x & 0xe0 == 0xc0` and
`x & 0xe0 == 0xe0` inspect bit fields of byte 8; extracting bits
`[k, 8)` of `x` is `x / 2 ^ k % 2 ^ (8 - k)`, so the guards become the
field-value tests below (exact for every `Nat`, since only bits 5..7
are consulted).  The final arm repeats `Future`, as in the source's
unreachable default. -/
def Uuid.get_variant (u : Uuid) : Variant :=
  if u.b8 / 2 ^ 7 % 2 = 0 then Variant.NCS
  else if u.b8 / 2 ^ 6 % 2 ^ 2 = 2 then Variant.RFC4122
  else if u.b8 / 2 ^ 5 % 2 ^ 3 = 6 then Variant.Microsoft
  else if u.b8 / 2 ^ 5 % 2 ^ 3 = 7 then Variant.Future
  else Variant.Future

/-- `Uuid::get_version_num` (src/lib.rs): `(self.as_bytes()[6] >> 4)`. -/
def Uuid.get_version_num (u : Uuid) : Nat :=
  u.b6 / 2 ^ 4

/-- `Uuid::get_version` (src/lib.rs): the Rust match on
`get_version_num` with guard `0 if self.is_nil()`, arms 1–5 and a
catch-all `None`, rendered as a decidable if-chain. -/
def Uuid.get_version (u : Uuid) : Option Version :=
  if u.get_version_num = 0 then
    (if u.is_nil then some Version.Nil else none)
  else if u.get_version_num = 1 then some Version.Mac
  else if u.get_version_num = 2 then some Version.Dce
  else if u.get_version_num = 3 then some Version.Md5
  else if u.get_version_num = 4 then some Version.Random
  else if u.get_version_num = 5 then some Version.Sha1
  else none

/-- `Uuid::as_fields` (src/lib.rs): big-endian `u32`/`u16`/`u16` from
bytes 0..7 and the raw tail bytes 8..15 as `d4`. -/
def Uuid.as_fields (u : Uuid) : Nat × Nat × Nat × List Nat :=
  (u.b0 * 2 ^ 24 + u.b1 * 2 ^ 16 + u.b2 * 2 ^ 8 + u.b3,
   u.b4 * 2 ^ 8 + u.b5,
   u.b6 * 2 ^ 8 + u.b7,
   [u.b8, u.b9, u.b10, u.b11, u.b12, u.b13, u.b14, u.b15])

/-- `Uuid::to_fields_le` (src/lib.rs): little-endian `u32`/`u16`/`u16`
from bytes 0..7 and the raw tail bytes 8..15 as `d4`. -/
def Uuid.to_fields_le (u : Uuid) : Nat × Nat × Nat × List Nat :=
  (u.b0 + u.b1 * 2 ^ 8 + u.b2 * 2 ^ 16 + u.b3 * 2 ^ 24,
   u.b4 + u.b5 * 2 ^ 8,
   u.b6 + u.b7 * 2 ^ 8,
   [u.b8, u.b9, u.b10, u.b11, u.b12, u.b13, u.b14, u.b15])

/-- Modelled from the spec: `Uuid::from_fields` lives in src/builder.rs,
which is not part of the provided sources; §4.1 of the spec says it
"packs fields in RFC4122 big-endian field order" with `d4` "already a
raw byte string" copied as-is, matching the documented round-trip with
`as_fields`.  `d1` contributes its four bytes big-endian, `d2` and `d3`
their two bytes big-endian, and `e0..e7` (the 8 bytes of `d4`) are
copied verbatim. -/
def Uuid.from_fields (d1 d2 d3 e0 e1 e2 e3 e4 e5 e6 e7 : Nat) : Uuid :=
  { b0 := d1 / 2 ^ 24 % 2 ^ 8, b1 := d1 / 2 ^ 16 % 2 ^ 8,
    b2 := d1 / 2 ^ 8 % 2 ^ 8, b3 := d1 % 2 ^ 8,
    b4 := d2 / 2 ^ 8 % 2 ^ 8, b5 := d2 % 2 ^ 8,
    b6 := d3 / 2 ^ 8 % 2 ^ 8, b7 := d3 % 2 ^ 8,
    b8 := e0, b9 := e1, b10 := e2, b11 := e3,
    b12 := e4, b13 := e5, b14 := e6, b15 := e7 }

/-- `UUID_TICKS_BETWEEN_EPOCHS` (src/v1.rs): the number of 100 ns ticks
between the UUID epoch 1582-10-15 and the Unix epoch 1970-01-01. -/
def UUID_TICKS_BETWEEN_EPOCHS : Nat := 0x01B21DD213814000

/-- `Timestamp` (src/v1.rs): an RFC4122 `u64` tick count and a `u16`
counter. -/
structure Timestamp where
  ticks : Nat
  counter : Nat
  deriving DecidableEq

/-- `Timestamp::from_rfc4122` (src/v1.rs): stores both raw components
verbatim, enforcing nothing. -/
def Timestamp.from_rfc4122 (ticks counter : Nat) : Timestamp :=
  { ticks := ticks, counter := counter }

/-- `ClockSequence` (src/v1.rs): a generator of clock-sequence values;
the Rust trait's `u16` return type is the bound `lt`. -/
structure ClockSequence where
  generate_sequence : Nat → Nat → Nat
  lt : ∀ s n, generate_sequence s n < 2 ^ 16

/-- `Timestamp::from_unix` (src/v1.rs): asks the context for a counter,
then converts `(seconds, subsec_nanos)` to 100 ns ticks since the UUID
epoch.  The `u64` sum and product wrap at `2 ^ 64`. -/
def Timestamp.from_unix (cs : ClockSequence) (seconds subsec_nanos : Nat) :
    Timestamp :=
  { ticks := ((UUID_TICKS_BETWEEN_EPOCHS + seconds * 10000000 % 2 ^ 64) % 2 ^ 64
        + subsec_nanos / 100) % 2 ^ 64,
    counter := cs.generate_sequence seconds subsec_nanos }

/-- `Timestamp::to_rfc4122` (src/v1.rs). -/
def Timestamp.to_rfc4122 (t : Timestamp) : Nat × Nat :=
  (t.ticks, t.counter)

/-- `Timestamp::to_unix` (src/v1.rs): `self.ticks - UUID_TICKS_BETWEEN_EPOCHS`
is a `u64` subtraction that underflows whenever `ticks` is below the
epoch offset; the total embedding routes that case to `none`.  The
`as u32` cast of the fractional part wraps at `2 ^ 32` before the
`* 100` (itself a `u32` multiplication). -/
def Timestamp.to_unix (t : Timestamp) : Option (Nat × Nat) :=
  if t.ticks < UUID_TICKS_BETWEEN_EPOCHS then none
  else some ((t.ticks - UUID_TICKS_BETWEEN_EPOCHS) / 10000000,
    (t.ticks - UUID_TICKS_BETWEEN_EPOCHS) % 10000000 % 2 ^ 32 * 100 % 2 ^ 32)

/-- `Timestamp::to_unix_nanos` (src/v1.rs): the same guarded `u64`
subtraction, then `* 100` wrapping at `2 ^ 64`. -/
def Timestamp.to_unix_nanos (t : Timestamp) : Option Nat :=
  if t.ticks < UUID_TICKS_BETWEEN_EPOCHS then none
  else some ((t.ticks - UUID_TICKS_BETWEEN_EPOCHS) * 100 % 2 ^ 64)

/-- `Context` (src/v1.rs): the shared v1 clock-sequence state, a single
`u16` counter held in `Atomic<u16>`. -/
structure Context where
  count : Nat
  deriving DecidableEq

/-- `Context::new` (src/v1.rs): seeds the counter with a caller-supplied
`u16`. -/
def Context.new (count : Nat) : Context :=
  { count := count }

/-- `u16::MAX`. -/
def U16_MAX : Nat := 65535

/-- One `self.count.fetch_add(1, AcqRel)` step: returns the value read
and the updated context; the `u16` cell wraps at `2 ^ 16`.  Each
`generate_sequence` call performs exactly this one shared-memory
operation, so a concurrent execution is a sequence of these steps. -/
def Context.fetch_add (c : Context) : Nat × Context :=
  (c.count, { count := (c.count + 1) % 2 ^ 16 })

/-- `impl ClockSequence for Context::generate_sequence` (src/v1.rs): one
atomic fetch-add, then `% (u16::MAX >> 2)` applied to the value read;
both timestamp arguments are ignored.  Returns the sequence value
together with the updated context. -/
def Context.generate_sequence (c : Context) (_seconds _subsec_nanos : Nat) :
    Nat × Context :=
  ((c.fetch_add).1 % (U16_MAX >>> 2), (c.fetch_add).2)

/-- The raw `u16` values read by `k` successive `fetch_add` steps on a
shared context: the per-call raw counter observations of a
sequentialised concurrent execution. -/
def Context.raws (c : Context) : Nat → List Nat
  | 0 => []
  | Nat.succ k => (c.fetch_add).1 :: Context.raws (c.fetch_add).2 k

/-- `Uuid::new_v1` (src/v1.rs): packs the timestamp, counter and node id.
`ticks & 0xFFFF_FFFF` is `% 2 ^ 32`; `(ticks >> 32) & 0xFFFF` is
`/ 2 ^ 32 % 2 ^ 16`; `((ticks >> 48) & 0x0FFF) | (1 << 12)` is
`/ 2 ^ 48 % 2 ^ 12 + 2 ^ 12` (the ORed bit is disjoint);
`((counter & 0x3F00) >> 8) | 0x80` is `/ 2 ^ 8 % 2 ^ 6 + 2 ^ 7`;
`counter & 0xFF` is `% 2 ^ 8`. -/
def Uuid.new_v1 (ts : Timestamp) (n0 n1 n2 n3 n4 n5 : Nat) : Uuid :=
  Uuid.from_fields
    (ts.ticks % 2 ^ 32)
    (ts.ticks / 2 ^ 32 % 2 ^ 16)
    (ts.ticks / 2 ^ 48 % 2 ^ 12 + 2 ^ 12)
    (ts.counter / 2 ^ 8 % 2 ^ 6 + 2 ^ 7)
    (ts.counter % 2 ^ 8)
    n0 n1 n2 n3 n4 n5

/-- `Uuid::get_timestamp` (src/v1.rs): on a `Some(Version::Mac)` value,
reassembles the 60-bit tick count from bytes 6 (low nibble), 7, 4, 5,
0, 1, 2, 3 and the 14-bit counter from bytes 8 (low 6 bits) and 9; the
`|` of the disjoint shifted `u8` lanes is `+`.  Any other version gives
`none`. -/
def Uuid.get_timestamp (u : Uuid) : Option Timestamp :=
  if u.get_version = some Version.Mac then
    some (Timestamp.from_rfc4122
      (u.b6 % 2 ^ 4 * 2 ^ 56 + u.b7 * 2 ^ 48 + u.b4 * 2 ^ 40 + u.b5 * 2 ^ 32
        + u.b0 * 2 ^ 24 + u.b1 * 2 ^ 16 + u.b2 * 2 ^ 8 + u.b3)
      (u.b8 % 2 ^ 6 * 2 ^ 8 + u.b9))
  else none

/-! ## Claim theorems -/

/-- C1 (counterexample): the claim says `generate_sequence` returns the
fetched counter "modulo `2^14`", wrapping only after reaching `2^14`;
but the source applies `% (u16::MAX >> 2) = 16383 = 2^14 - 1`.  At seed
16383 the first call returns 0, while the modulo-`2^14` reading predicts
16383. -/
theorem generate_sequence_not_mod_two_pow_14 :
    ((Context.new 16383).generate_sequence 0 0).1 = 0 ∧
    16383 % 2 ^ 14 = 16383 := by
  decide

/-- C1 (amended): each call to `generate_sequence` on a `Context` seeded
with a 16-bit value reads the shared counter, increments it (the `u16`
cell wraps at `2 ^ 16`), and returns the value read modulo
`u16::MAX >> 2 = 2 ^ 14 - 1 = 16383`, wrapping back to 0 after reaching
16383 rather than after `u16::MAX`; in particular a `Context` seeded at
16382 returns 16382 on the first call and 0 on the second. -/
theorem generate_sequence_mod_16383 (c s1 n1 s2 n2 : Nat) (h : c < 2 ^ 16) :
    ((Context.new c).generate_sequence s1 n1).1 = c % (2 ^ 14 - 1) ∧
    ((Context.new c).generate_sequence s1 n1).2.count = (c + 1) % 2 ^ 16 ∧
    (((Context.new c).generate_sequence s1 n1).2.generate_sequence s2 n2).1
      = (c + 1) % 2 ^ 16 % (2 ^ 14 - 1) := by
  simp [Context.generate_sequence, Context.fetch_add, Context.new, U16_MAX,
    Nat.shiftRight_eq_div_pow]

/-- C1 (witness): the amended wraparound at the concrete seed 16382: the
first call returns 16382 raw, the second wraps to 0. -/
theorem generate_sequence_mod_16383_witness :
    ((Context.new 16382).generate_sequence 0 0).1 = 16382 ∧
    (((Context.new 16382).generate_sequence 0 0).2.generate_sequence 0 0).1
      = 0 := by
  have h := generate_sequence_mod_16383 16382 0 0 0 0 (by norm_num)
  exact ⟨h.1.trans (by norm_num), h.2.2.trans (by norm_num)⟩

/-- C5: `get_version` returns `some Nil` exactly when all 16 bytes are
zero, returns the matching recognized version for nibbles 1 through 5,
and returns `none` in every other case — nibble 0 on a non-all-zero
value and nibbles 6 and above — without raising any error. -/
theorem get_version_classification (u : Uuid) :
    (u.get_version = some Version.Nil ↔
      (u.b0 = 0 ∧ u.b1 = 0 ∧ u.b2 = 0 ∧ u.b3 = 0 ∧ u.b4 = 0 ∧ u.b5 = 0 ∧
       u.b6 = 0 ∧ u.b7 = 0 ∧ u.b8 = 0 ∧ u.b9 = 0 ∧ u.b10 = 0 ∧ u.b11 = 0 ∧
       u.b12 = 0 ∧ u.b13 = 0 ∧ u.b14 = 0 ∧ u.b15 = 0)) ∧
    (u.get_version = some Version.Mac ↔ u.get_version_num = 1) ∧
    (u.get_version = some Version.Dce ↔ u.get_version_num = 2) ∧
    (u.get_version = some Version.Md5 ↔ u.get_version_num = 3) ∧
    (u.get_version = some Version.Random ↔ u.get_version_num = 4) ∧
    (u.get_version = some Version.Sha1 ↔ u.get_version_num = 5) ∧
    (u.get_version = none ↔
      ((u.get_version_num = 0 ∧
        ¬ (u.b0 = 0 ∧ u.b1 = 0 ∧ u.b2 = 0 ∧ u.b3 = 0 ∧ u.b4 = 0 ∧ u.b5 = 0 ∧
           u.b6 = 0 ∧ u.b7 = 0 ∧ u.b8 = 0 ∧ u.b9 = 0 ∧ u.b10 = 0 ∧ u.b11 = 0 ∧
           u.b12 = 0 ∧ u.b13 = 0 ∧ u.b14 = 0 ∧ u.b15 = 0)) ∨
       6 ≤ u.get_version_num)) := by
  have hnil : u.is_nil = true ↔
      (u.b0 = 0 ∧ u.b1 = 0 ∧ u.b2 = 0 ∧ u.b3 = 0 ∧ u.b4 = 0 ∧ u.b5 = 0 ∧
       u.b6 = 0 ∧ u.b7 = 0 ∧ u.b8 = 0 ∧ u.b9 = 0 ∧ u.b10 = 0 ∧ u.b11 = 0 ∧
       u.b12 = 0 ∧ u.b13 = 0 ∧ u.b14 = 0 ∧ u.b15 = 0) := by
    simp only [Uuid.is_nil, Uuid.as_u128, beq_iff_eq]
    omega
  unfold Uuid.get_version
  split_ifs <;> simp_all [Uuid.get_version_num] <;> omega

/-- C8: for every clock-sequence context and every `(seconds,
subsec_nanos)` input, `Timestamp::from_unix` produces ticks equal to
`0x01B21DD213814000 + seconds * 10_000_000 + subsec_nanos / 100` in
wrapping `u64` arithmetic, and a counter equal to the value returned by
the context's `generate_sequence` for those arguments. -/
theorem from_unix_ticks_counter (cs : ClockSequence) (s n : Nat) :
    (Timestamp.from_unix cs s n).ticks
      = (0x01B21DD213814000 + s * 10000000 + n / 100) % 2 ^ 64 ∧
    (Timestamp.from_unix cs s n).counter = cs.generate_sequence s n := by
  refine ⟨?_, rfl⟩
  show ((UUID_TICKS_BETWEEN_EPOCHS + s * 10000000 % 2 ^ 64) % 2 ^ 64
      + n / 100) % 2 ^ 64 = _
  unfold UUID_TICKS_BETWEEN_EPOCHS
  omega

/-- C9: `get_variant` is total and determined solely by the
most-significant bits of byte 8: NCS when the top bit is 0 (byte below
128), RFC4122 when the top two bits are `10` (byte in 128..191),
Microsoft when the top three bits are `110` (byte in 192..223), and
Future when the top three bits are `111` (byte in 224..255). -/
theorem get_variant_by_top_bits (u : Uuid) (h : u.b8 < 256) :
    (u.get_variant = Variant.NCS ↔ u.b8 < 128) ∧
    (u.get_variant = Variant.RFC4122 ↔ 128 ≤ u.b8 ∧ u.b8 < 192) ∧
    (u.get_variant = Variant.Microsoft ↔ 192 ≤ u.b8 ∧ u.b8 < 224) ∧
    (u.get_variant = Variant.Future ↔ 224 ≤ u.b8) := by
  unfold Uuid.get_variant
  split_ifs <;> simp_all <;> omega

/-- C9 (witness): at the concrete byte `0xC5` in position 8 the variant
is Microsoft. -/
theorem get_variant_by_top_bits_witness :
    (Uuid.mk 0 0 0 0 0 0 0 0 197 0 0 0 0 0 0 0).get_variant
      = Variant.Microsoft := by
  exact ((get_variant_by_top_bits
    (Uuid.mk 0 0 0 0 0 0 0 0 197 0 0 0 0 0 0 0)
    (by norm_num)).2.2.1).mpr (by norm_num)

/-- C10: every `Timestamp` whose tick count is below the epoch offset
`0x01B21DD213814000` drives the `u64` subtraction inside `to_unix` and
`to_unix_nanos` into its underflow branch (`none` in the total
embedding), and `Timestamp::from_rfc4122` does not enforce the implied
precondition `ticks ≥ 0x01B21DD213814000`; conversely every timestamp
meeting the precondition takes the non-error branch. -/
theorem to_unix_pre_epoch_underflow (ticks counter : Nat)
    (h : ticks < UUID_TICKS_BETWEEN_EPOCHS) :
    (Timestamp.from_rfc4122 ticks counter).to_unix = none ∧
    (Timestamp.from_rfc4122 ticks counter).to_unix_nanos = none ∧
    (∀ t : Timestamp, UUID_TICKS_BETWEEN_EPOCHS ≤ t.ticks →
      (∃ p, t.to_unix = some p) ∧ ∃ v, t.to_unix_nanos = some v) := by
  refine ⟨?_, ?_, ?_⟩
  · simp [Timestamp.to_unix, Timestamp.from_rfc4122, h]
  · simp [Timestamp.to_unix_nanos, Timestamp.from_rfc4122, h]
  · intro t ht
    have hlt : ¬ t.ticks < UUID_TICKS_BETWEEN_EPOCHS := Nat.not_lt.mpr ht
    refine ⟨⟨((t.ticks - UUID_TICKS_BETWEEN_EPOCHS) / 10000000,
        (t.ticks - UUID_TICKS_BETWEEN_EPOCHS) % 10000000 % 2 ^ 32 * 100
          % 2 ^ 32), ?_⟩,
      ⟨(t.ticks - UUID_TICKS_BETWEEN_EPOCHS) * 100 % 2 ^ 64, ?_⟩⟩
    · simp [Timestamp.to_unix, hlt]
    · simp [Timestamp.to_unix_nanos, hlt]

/-- C10 (witness): the timestamp built by `from_rfc4122 0 0` — a legal
construction — hits the underflow branch of both accessors. -/
theorem to_unix_pre_epoch_underflow_witness :
    (Timestamp.from_rfc4122 0 0).to_unix = none ∧
    (Timestamp.from_rfc4122 0 0).to_unix_nanos = none := by
  exact ⟨(to_unix_pre_epoch_underflow 0 0 (by decide)).1,
    (to_unix_pre_epoch_underflow 0 0 (by decide)).2.1⟩

/-- C2: `new_v1` produces the 16-byte value whose first 4 bytes are the
low 32 bits of `ticks` big-endian, next 2 bytes are bits 32..47 of
`ticks`, next 2 bytes are bits 48..59 of `ticks` with the version
nibble `0001` in the top 4 bits (byte 6 carries `0x10`), byte 8 is the
high 6 of the low 14 bits of `counter` with the top 2 bits forced to
`10` (plus `0x80`), byte 9 is the low 8 bits of `counter`, and bytes
10..15 are the node bytes verbatim. -/
theorem new_v1_layout (ts : Timestamp) (n0 n1 n2 n3 n4 n5 : Nat) :
    Uuid.new_v1 ts n0 n1 n2 n3 n4 n5 =
      { b0 := ts.ticks / 2 ^ 24 % 2 ^ 8, b1 := ts.ticks / 2 ^ 16 % 2 ^ 8,
        b2 := ts.ticks / 2 ^ 8 % 2 ^ 8, b3 := ts.ticks % 2 ^ 8,
        b4 := ts.ticks / 2 ^ 40 % 2 ^ 8, b5 := ts.ticks / 2 ^ 32 % 2 ^ 8,
        b6 := ts.ticks / 2 ^ 56 % 2 ^ 4 + 2 ^ 4,
        b7 := ts.ticks / 2 ^ 48 % 2 ^ 8,
        b8 := ts.counter % 2 ^ 14 / 2 ^ 8 + 2 ^ 7, b9 := ts.counter % 2 ^ 8,
        b10 := n0, b11 := n1, b12 := n2, b13 := n3, b14 := n4, b15 := n5 } := by
  unfold Uuid.new_v1 Uuid.from_fields
  simp only [Uuid.mk.injEq]
  repeat' apply And.intro
  all_goals first | trivial | omega

/-- C3: `get_timestamp` is the exact inverse of `new_v1` for every tick
count fitting in 60 bits, counter fitting in 14 bits and 6-byte node
id; and it returns `none` on every UUID whose version is not 1. -/
theorem get_timestamp_roundtrip :
    (∀ ticks counter n0 n1 n2 n3 n4 n5 : Nat,
      ticks < 2 ^ 60 → counter < 2 ^ 14 →
      (Uuid.new_v1 (Timestamp.from_rfc4122 ticks counter)
          n0 n1 n2 n3 n4 n5).get_timestamp
        = some (Timestamp.from_rfc4122 ticks counter)) ∧
    (∀ u : Uuid, u.get_version ≠ some Version.Mac →
      u.get_timestamp = none) := by
  constructor
  · intro ticks counter n0 n1 n2 n3 n4 n5 ht hc
    have hver :
        (Uuid.new_v1 (Timestamp.from_rfc4122 ticks counter)
          n0 n1 n2 n3 n4 n5).get_version = some Version.Mac := by
      have hnum :
          (Uuid.new_v1 (Timestamp.from_rfc4122 ticks counter)
            n0 n1 n2 n3 n4 n5).get_version_num = 1 := by
        show (ticks / 2 ^ 48 % 2 ^ 12 + 2 ^ 12) / 2 ^ 8 % 2 ^ 8 / 2 ^ 4 = 1
        omega
      unfold Uuid.get_version
      rw [hnum]
      norm_num
    unfold Uuid.get_timestamp
    rw [if_pos hver]
    unfold Uuid.new_v1 Uuid.from_fields Timestamp.from_rfc4122
    simp only [Option.some.injEq, Timestamp.mk.injEq]
    repeat' apply And.intro
    all_goals first | trivial | omega
  · intro u h
    unfold Uuid.get_timestamp
    rw [if_neg h]

/-- C3 (witness): the round-trip at ticks 1497624119, counter 3, node
`[1,2,3,4,5,6]`, and the `none` branch at the all-zero (version `Nil`)
value. -/
theorem get_timestamp_roundtrip_witness :
    (Uuid.new_v1 (Timestamp.from_rfc4122 1497624119 3)
        1 2 3 4 5 6).get_timestamp
      = some (Timestamp.from_rfc4122 1497624119 3) ∧
    (Uuid.mk 0 0 0 0 0 0 0 0 0 0 0 0 0 0 0 0).get_timestamp = none := by
  exact ⟨get_timestamp_roundtrip.1 1497624119 3 1 2 3 4 5 6
      (by norm_num) (by norm_num),
    get_timestamp_roundtrip.2 _ (by decide)⟩

/-- Byte swap of a 32-bit value, the spec-side reading of Rust's
`u32::swap_bytes`. -/
def swapBytes32 (x : Nat) : Nat :=
  x % 2 ^ 8 * 2 ^ 24 + x / 2 ^ 8 % 2 ^ 8 * 2 ^ 16
    + x / 2 ^ 16 % 2 ^ 8 * 2 ^ 8 + x / 2 ^ 24 % 2 ^ 8

/-- Byte swap of a 16-bit value, the spec-side reading of Rust's
`u16::swap_bytes`. -/
def swapBytes16 (x : Nat) : Nat :=
  x % 2 ^ 8 * 2 ^ 8 + x / 2 ^ 8 % 2 ^ 8

/-- C6: `to_fields_le` returns the same four fields as `as_fields`
except that `d1` is byte-swapped as a `u32` and `d2`, `d3` are
byte-swapped as `u16`s, while the 8-byte `d4` is returned unchanged:
the flip is per integer field, never applied to `d4`. -/
theorem to_fields_le_swaps (u : Uuid)
    (h0 : u.b0 < 256) (h1 : u.b1 < 256) (h2 : u.b2 < 256) (h3 : u.b3 < 256)
    (h4 : u.b4 < 256) (h5 : u.b5 < 256) (h6 : u.b6 < 256) (h7 : u.b7 < 256) :
    u.to_fields_le =
      (swapBytes32 (u.as_fields).1, swapBytes16 (u.as_fields).2.1,
       swapBytes16 (u.as_fields).2.2.1, (u.as_fields).2.2.2) := by
  unfold Uuid.to_fields_le Uuid.as_fields swapBytes32 swapBytes16
  simp only [Prod.mk.injEq]
  repeat' apply And.intro
  all_goals first | trivial | omega

/-- C6 (witness): the swap at the documentation example
`a1a2a3a4-b1b2-c1c2-d1d2-d3d4d5d6d7d8`. -/
theorem to_fields_le_swaps_witness :
    (Uuid.mk 0xa1 0xa2 0xa3 0xa4 0xb1 0xb2 0xc1 0xc2
        0xd1 0xd2 0xd3 0xd4 0xd5 0xd6 0xd7 0xd8).to_fields_le =
      (0xa4a3a2a1, 0xb2b1, 0xc2c1,
       [0xd1, 0xd2, 0xd3, 0xd4, 0xd5, 0xd6, 0xd7, 0xd8]) := by
  rw [to_fields_le_swaps _ (by norm_num) (by norm_num) (by norm_num)
    (by norm_num) (by norm_num) (by norm_num) (by norm_num) (by norm_num)]
  decide

/-- Byte swap of a 128-bit value, the spec-side reading of Rust's
`u128::swap_bytes`. -/
def swapBytes128 (x : Nat) : Nat :=
  x % 2 ^ 8 * 2 ^ 120 + x / 2 ^ 8 % 2 ^ 8 * 2 ^ 112
    + x / 2 ^ 16 % 2 ^ 8 * 2 ^ 104 + x / 2 ^ 24 % 2 ^ 8 * 2 ^ 96
    + x / 2 ^ 32 % 2 ^ 8 * 2 ^ 88 + x / 2 ^ 40 % 2 ^ 8 * 2 ^ 80
    + x / 2 ^ 48 % 2 ^ 8 * 2 ^ 72 + x / 2 ^ 56 % 2 ^ 8 * 2 ^ 64
    + x / 2 ^ 64 % 2 ^ 8 * 2 ^ 56 + x / 2 ^ 72 % 2 ^ 8 * 2 ^ 48
    + x / 2 ^ 80 % 2 ^ 8 * 2 ^ 40 + x / 2 ^ 88 % 2 ^ 8 * 2 ^ 32
    + x / 2 ^ 96 % 2 ^ 8 * 2 ^ 24 + x / 2 ^ 104 % 2 ^ 8 * 2 ^ 16
    + x / 2 ^ 112 % 2 ^ 8 * 2 ^ 8 + x / 2 ^ 120 % 2 ^ 8

/-- C7: `to_u128_le` equals `as_u128` with its full 16-byte
representation reversed (`u128::swap_bytes`): the little-endian `u128`
accessor reverses the whole 128-bit value, not the individual fields. -/
theorem to_u128_le_swap (u : Uuid)
    (h0 : u.b0 < 256) (h1 : u.b1 < 256) (h2 : u.b2 < 256) (h3 : u.b3 < 256)
    (h4 : u.b4 < 256) (h5 : u.b5 < 256) (h6 : u.b6 < 256) (h7 : u.b7 < 256)
    (h8 : u.b8 < 256) (h9 : u.b9 < 256) (h10 : u.b10 < 256)
    (h11 : u.b11 < 256) (h12 : u.b12 < 256) (h13 : u.b13 < 256)
    (h14 : u.b14 < 256) (h15 : u.b15 < 256) :
    u.to_u128_le = swapBytes128 u.as_u128 := by
  have e0 : u.as_u128 % 2 ^ 8 = u.b15 := by
    unfold Uuid.as_u128
    omega
  have e1 : u.as_u128 / 2 ^ 8 % 2 ^ 8 = u.b14 := by
    unfold Uuid.as_u128
    omega
  have e2 : u.as_u128 / 2 ^ 16 % 2 ^ 8 = u.b13 := by
    unfold Uuid.as_u128
    omega
  have e3 : u.as_u128 / 2 ^ 24 % 2 ^ 8 = u.b12 := by
    unfold Uuid.as_u128
    omega
  have e4 : u.as_u128 / 2 ^ 32 % 2 ^ 8 = u.b11 := by
    unfold Uuid.as_u128
    omega
  have e5 : u.as_u128 / 2 ^ 40 % 2 ^ 8 = u.b10 := by
    unfold Uuid.as_u128
    omega
  have e6 : u.as_u128 / 2 ^ 48 % 2 ^ 8 = u.b9 := by
    unfold Uuid.as_u128
    omega
  have e7 : u.as_u128 / 2 ^ 56 % 2 ^ 8 = u.b8 := by
    unfold Uuid.as_u128
    omega
  have e8 : u.as_u128 / 2 ^ 64 % 2 ^ 8 = u.b7 := by
    unfold Uuid.as_u128
    omega
  have e9 : u.as_u128 / 2 ^ 72 % 2 ^ 8 = u.b6 := by
    unfold Uuid.as_u128
    omega
  have e10 : u.as_u128 / 2 ^ 80 % 2 ^ 8 = u.b5 := by
    unfold Uuid.as_u128
    omega
  have e11 : u.as_u128 / 2 ^ 88 % 2 ^ 8 = u.b4 := by
    unfold Uuid.as_u128
    omega
  have e12 : u.as_u128 / 2 ^ 96 % 2 ^ 8 = u.b3 := by
    unfold Uuid.as_u128
    omega
  have e13 : u.as_u128 / 2 ^ 104 % 2 ^ 8 = u.b2 := by
    unfold Uuid.as_u128
    omega
  have e14 : u.as_u128 / 2 ^ 112 % 2 ^ 8 = u.b1 := by
    unfold Uuid.as_u128
    omega
  have e15 : u.as_u128 / 2 ^ 120 % 2 ^ 8 = u.b0 := by
    unfold Uuid.as_u128
    omega
  unfold swapBytes128
  rw [e0, e1, e2, e3, e4, e5, e6, e7, e8, e9, e10, e11, e12, e13, e14, e15]
  unfold Uuid.to_u128_le
  omega


/-- C7 (witness): the swap at the documentation example
`a1a2a3a4-b1b2-c1c2-d1d2-d3d4d5d6d7d8`, whose little-endian u128 is
`0xd8d7d6d5d4d3d2d1c2c1b2b1a4a3a2a1`. -/
theorem to_u128_le_swap_witness :
    (Uuid.mk 0xa1 0xa2 0xa3 0xa4 0xb1 0xb2 0xc1 0xc2
        0xd1 0xd2 0xd3 0xd4 0xd5 0xd6 0xd7 0xd8).to_u128_le =
      0xd8d7d6d5d4d3d2d1c2c1b2b1a4a3a2a1 := by
  rw [to_u128_le_swap _ (by norm_num) (by norm_num) (by norm_num)
    (by norm_num) (by norm_num) (by norm_num) (by norm_num) (by norm_num)
    (by norm_num) (by norm_num) (by norm_num) (by norm_num) (by norm_num)
    (by norm_num) (by norm_num) (by norm_num)]
  decide

/-- The raw value observed by the `i`-th of `k` sequentialised
`fetch_add` steps is the seed plus `i`, wrapped at `2 ^ 16`. -/
theorem Context.raws_getElem (c : Context) (hc : c.count < 2 ^ 16) :
    ∀ k i : Nat, i < k →
      (Context.raws c k)[i]? = some ((c.count + i) % 2 ^ 16) := by
  intro k
  induction k generalizing c with
  | zero => intro i h; omega
  | succ k ih =>
    intro i h
    cases i with
    | zero =>
      simp only [Context.raws, Context.fetch_add, List.getElem?_cons_zero,
        Option.some.injEq]
      omega
    | succ i =>
      have hstep := ih { count := (c.count + 1) % 2 ^ 16 }
        (Nat.mod_lt _ (by norm_num)) i (by omega)
      simp only [Context.raws, Context.fetch_add,
        List.getElem?_cons_succ] at hstep ⊢
      rw [hstep]
      simp only [Option.some.injEq]
      omega

/-- C4 (counterexample): the claim that concurrent callers "never
observe duplicate raw counter values for distinct calls" fails once
more than `2 ^ 16` calls occur, because the raw `u16` counter itself
wraps: starting from seed 0, call 0 and call 65536 both read raw value
0. -/
theorem raw_values_repeat :
    (Context.raws (Context.new 0) 65537)[0]? = some 0 ∧
    (Context.raws (Context.new 0) 65537)[65536]? = some 0 := by
  have h0 := Context.raws_getElem (Context.new 0) (by decide)
    65537 0 (by norm_num)
  have h1 := Context.raws_getElem (Context.new 0) (by decide)
    65537 65536 (by norm_num)
  norm_num [Context.new] at h0 h1
  exact ⟨h0, h1⟩

/-- C4 (amended): each `generate_sequence` call performs exactly one
atomic read-modify-write (a fetch-add, with the modulus applied to the
value read), so in any sequentialisation of concurrent callers the raw
counter values of distinct calls are pairwise distinct as long as at
most `2 ^ 16` calls are made — the raw `u16` counter wraps beyond that
— while two different raw counter values can map to the same 14-bit
output. -/
theorem raw_values_distinct_within_u16 :
    (∀ c : Context, c.count < 2 ^ 16 → ∀ k, k ≤ 2 ^ 16 →
      ∀ i j : Nat, i < j → j < k →
      (Context.raws c k)[i]? ≠ (Context.raws c k)[j]?) ∧
    (∃ c1 c2 : Context, c1.count ≠ c2.count ∧
      (Context.generate_sequence c1 0 0).1
        = (Context.generate_sequence c2 0 0).1) := by
  constructor
  · intro c hc k hk i j hij hjk
    rw [Context.raws_getElem c hc k i (by omega),
      Context.raws_getElem c hc k j hjk]
    simp only [ne_eq, Option.some.injEq]
    omega
  · exact ⟨⟨0⟩, ⟨16383⟩, by norm_num, by decide⟩

/-- C4 (witness): for a context at count 5 and a run of 3 calls, calls
0 and 1 observe different raw values. -/
theorem raw_values_distinct_within_u16_witness :
    (Context.raws (Context.mk 5) 3)[0]? ≠ (Context.raws (Context.mk 5) 3)[1]? := by
  exact raw_values_distinct_within_u16.1 ⟨5⟩ (by norm_num) 3 (by norm_num)
    0 1 (by norm_num) (by norm_num)

end UuidCrate
